import Mathlib

/-!
Verification development for the SnapShelf inventory core.

The definitions below are shallow embeddings of the TypeScript source:

* `mergeInventoryItems`     from mobile/app/(tabs)/inventory.tsx (lines 39-63)
* `handleItemPress`         from inventory.tsx (lines 161-172)
* `confirmConsume`          from inventory.tsx (lines 215-238)
* `getDaysUntilExpiry`      from inventory.tsx (lines 272-279)
* `classifyDays`            the bucket logic of getStatusCounts, inventory.tsx (282-295)
* `filterByCategory` and `sortByName`  from filteredAndSortedItems, inventory.tsx (298-341)
* `openConfirmModalData` and `handleConfirm`  from the drafts screen (drafts.tsx 77-100)
* `confirmItem`             from the add-item screen (detected-item confirmation)
* `toggleIngredient`, `ingredientsToSend`, `handleGenerateRecipes`
                            from the recipes screen

Numeric quantities are modelled as rationals (JavaScript numbers hold the
results of parseFloat on user input; all arithmetic in the claims is exact).
JavaScript string helpers (toLowerCase, trim, splitting on a separator,
decimal parsing) are modelled over the character list of a string, restricted
to ASCII, which covers every value appearing in the source and the claims.
Record fields not read by any modelled operation (user_id, created_at,
notes, source, confidence_score) are omitted from the embedded records.
-/

/-- Model of JavaScript String.prototype.toLowerCase, ASCII case folding. -/
def jsToLower (s : String) : String := ⟨s.data.map Char.toLower⟩

/-- Drop whitespace from both ends of a character list. -/
def trimChars (l : List Char) : List Char :=
  ((l.dropWhile Char.isWhitespace).reverse.dropWhile Char.isWhitespace).reverse

/-- Model of JavaScript String.prototype.trim. -/
def jsTrim (s : String) : String := ⟨trimChars s.data⟩

/-- Split a character list on a separator character. -/
def splitOnChar (sep : Char) : List Char → List (List Char)
  | [] => [[]]
  | c :: rest =>
    let r := splitOnChar sep rest
    if c = sep then [] :: r
    else
      match r with
      | h :: t => (c :: h) :: t
      | [] => [[c]]

/-- Parse a nonempty all-digit character list as a natural number. -/
def digitsToNat? (l : List Char) : Option Nat :=
  if l ≠ [] ∧ l.all Char.isDigit then
    some (l.foldl (fun a c => a * 10 + (c.toNat - 48)) 0)
  else none

/-- Parse a calendar date string of the form YYYY-MM-DD into a year, month,
day triple, the shape accepted by the JavaScript Date constructor in the
source. Malformed strings yield none. -/
def parseDate (s : String) : Option (Int × Int × Int) :=
  match (splitOnChar '-' s.data).map digitsToNat? with
  | [some y, some m, some d] => some ((y : Int), (m : Int), (d : Int))
  | _ => none

/-- Days from the Unix epoch to a civil date, the standard days-from-civil
calendar computation. This models new Date(s).getTime() for a date-only
string with the time of day stripped, measured in whole days. -/
def toEpochDays : Int × Int × Int → Int := fun (y, m, d) =>
  let yAdj := if m ≤ 2 then y - 1 else y
  let era := (if 0 ≤ yAdj then yAdj else yAdj - 399) / 400
  let yoe := yAdj - era * 400
  let mp := (m + 9) % 12
  let doy := (153 * mp + 2) / 5 + d - 1
  let doe := yoe * 365 + yoe / 4 - yoe / 100 + doy
  era * 146097 + doe - 719468

/-- Ceiling division for a positive divisor, the value of Math.ceil (a / b)
on exact integer inputs. -/
def jsCeilDiv (a b : Int) : Int := -((-a).ediv b)

/-- Milliseconds per day, the divisor 1000 * 60 * 60 * 24 of the source. -/
def msPerDay : Int := 86400000

/-- Embedding of getDaysUntilExpiry (inventory.tsx 272-279): both dates are
normalised to midnight, their millisecond difference is divided by one day
and rounded up with Math.ceil. The reference date (new Date() in the
source) is passed explicitly. -/
def getDaysUntilExpiry (expiryDate todayDate : String) : Option Int :=
  match parseDate expiryDate, parseDate todayDate with
  | some e, some t =>
    some (jsCeilDiv ((toEpochDays e - toEpochDays t) * msPerDay) msPerDay)
  | _, _ => none

/-- Expiry urgency buckets of the inventory screen. -/
inductive ExpiryBucket
  | expired
  | expiring
  | fresh
deriving DecidableEq

/-- Bucket logic of getStatusCounts (inventory.tsx 282-295): days below zero
count as expired, days up to the threshold 3 as expiring soon, the rest as
fresh. -/
def classifyDays (days : Int) : ExpiryBucket :=
  if days < 0 then ExpiryBucket.expired
  else if days ≤ 3 then ExpiryBucket.expiring
  else ExpiryBucket.fresh

/-- An owned inventory record (types.ts InventoryItem), restricted to the
fields the modelled operations read. -/
structure InventoryItem where
  id : String
  name : String
  category : String
  quantity : ℚ
  unit : String
  storage_location : String
  expiry_date : String
deriving DecidableEq

/-- A display row produced by merging (MergedInventoryItem in
inventory.tsx 33-36). -/
structure MergedInventoryItem extends InventoryItem where
  mergedIds : List String
  mergedCount : Nat
deriving DecidableEq

/-- The normalised name used in the merge key: lowercased then trimmed,
exactly item.name.toLowerCase().trim() of the source. -/
def normName (s : String) : String := jsTrim (jsToLower s)

/-- The merge key of an item: normalised name, an underscore, and the expiry
date, as built in inventory.tsx line 44. -/
def itemKey (i : InventoryItem) : String := normName i.name ++ "_" ++ i.expiry_date

/-- The merge key of a merged row (computed from its descriptive fields,
which are those of the first constituent). -/
def mKey (m : MergedInventoryItem) : String := itemKey m.toInventoryItem

/-- A fresh merged row seeded from one item (the else branch of the source
loop). -/
def mkMerged (i : InventoryItem) : MergedInventoryItem :=
  { toInventoryItem := i, mergedIds := [i.id], mergedCount := 1 }

/-- One step of the merge loop: JavaScript Map.set semantics, updating the
unique row holding the key of the incoming item in place, or appending a new
row at the end in insertion order. -/
def mergeInsert : List MergedInventoryItem → InventoryItem → List MergedInventoryItem
  | [], it => [mkMerged it]
  | m :: rest, it =>
    if mKey m = itemKey it then
      { m with
        quantity := m.quantity + it.quantity,
        mergedIds := m.mergedIds ++ [it.id],
        mergedCount := m.mergedCount + 1 } :: rest
    else
      m :: mergeInsert rest it

/-- Embedding of mergeInventoryItems (inventory.tsx 39-63): fold the items
into a keyed accumulator and return the rows in insertion order, which is
Array.from(mergeMap.values()). -/
def mergeInventoryItems (items : List InventoryItem) : List MergedInventoryItem :=
  items.foldl mergeInsert []

/-- Quantity stored under a merge key among the rows: the quantity of the
first row holding the key, none when no row holds it. -/
def qtyAt : List MergedInventoryItem → String → Option ℚ
  | [], _ => none
  | m :: rest, k => if mKey m = k then some m.quantity else qtyAt rest k

/-- The merge keys of the rows, in row order. -/
def keysOf (rows : List MergedInventoryItem) : List String := rows.map mKey

/-- Total quantity of the input items holding a given merge key. -/
def totalQty (l : List InventoryItem) (k : String) : ℚ :=
  ((l.filter (fun i => itemKey i == k)).map (fun i => i.quantity)).sum

/-- Sum of the quantities of a collection of items. -/
def sumQty (l : List InventoryItem) : ℚ := (l.map (fun i => i.quantity)).sum

/-- Sum of the quantities of a collection of merged rows. -/
def sumQtyM (rows : List MergedInventoryItem) : ℚ := (rows.map (fun m => m.quantity)).sum

/-- Projection of a merged row to its merge key and summed quantity, the
comparison basis for order independence. -/
def projKQ (m : MergedInventoryItem) : String × ℚ := (mKey m, m.quantity)

/-- The effect the consumption operation emits for one record. -/
inductive ConsumeEffect
  | remove
  | update (remaining : ℚ)
deriving DecidableEq

/-- The branch logic of confirmConsume (inventory.tsx 215-238) on one
record: remaining = quantity - consumedAmount; a nonpositive remainder
deletes the record, a positive remainder updates its quantity. -/
def consumeEffect (quantity consumedAmount : ℚ) : ConsumeEffect :=
  let remaining := quantity - consumedAmount
  if remaining ≤ 0 then ConsumeEffect.remove else ConsumeEffect.update remaining

/-- The external call confirmConsume issues against the store. -/
inductive ApiEffect
  | deleteItem (id : String)
  | updateItem (id : String) (newQuantity : ℚ)
deriving DecidableEq

/-- Embedding of handleItemPress (inventory.tsx 161-172): look up the first
constituent of the merged row among the underlying records and select it,
with the merged quantity substituted for display. -/
def handleItemPress (items : List InventoryItem) (row : MergedInventoryItem) :
    Option InventoryItem :=
  match row.mergedIds with
  | [] => none
  | fid :: _ =>
    (items.find? (fun i => i.id == fid)).map
      (fun orig => { orig with quantity := row.quantity })

/-- Embedding of confirmConsume (inventory.tsx 215-238): the emitted store
call and the resulting local collection. The update branch models the store
echoing the updated record back. -/
def confirmConsume (items : List InventoryItem) (sel : InventoryItem) (q : ℚ) :
    ApiEffect × List InventoryItem :=
  let remaining := sel.quantity - q
  if remaining ≤ 0 then
    (ApiEffect.deleteItem sel.id, items.filter (fun i => !(i.id == sel.id)))
  else
    (ApiEffect.updateItem sel.id remaining,
     items.map (fun i => if i.id == sel.id then { sel with quantity := remaining } else i))

/-- The category filter of filteredAndSortedItems (inventory.tsx 310-314):
case-insensitive equality on the category field. -/
def filterByCategory (c : String) (rows : List MergedInventoryItem) :
    List MergedInventoryItem :=
  rows.filter (fun m => jsToLower m.category == jsToLower c)

/-- The name sort of filteredAndSortedItems (inventory.tsx 329-330):
ascending lexicographic order on the name field. -/
def sortByName (rows : List MergedInventoryItem) : List MergedInventoryItem :=
  rows.mergeSort (fun a b => decide (a.name ≤ b.name))

/-- An outbound recipe ingredient (types.ts IngredientInput) as the source
populates it: every field is supplied. -/
structure IngredientInput where
  name : String
  quantity : ℚ
  unit : String
  expiry_date : String
deriving DecidableEq

/-- The snapshot projection of an inventory item used by the recipes screen
when it adds an ingredient. -/
def projIngredient (i : InventoryItem) : IngredientInput :=
  { name := i.name, quantity := i.quantity, unit := i.unit, expiry_date := i.expiry_date }

/-- The two selection modes of the recipes screen. -/
inductive SelectionMode
  | expiring
  | manual
deriving DecidableEq

/-- Embedding of toggleIngredient (recipes screen): when an entry with the
same name exists, drop every entry with that name, otherwise append a
snapshot of the item. -/
def toggleIngredient (selected : List IngredientInput) (item : InventoryItem) :
    List IngredientInput :=
  if (selected.find? (fun i => i.name == item.name)).isSome then
    selected.filter (fun i => !(i.name == item.name))
  else
    selected ++ [projIngredient item]

/-- Outcome of the generate handler: blocked by a guard, or a submission to
the external generator. -/
inductive GenerateOutcome
  | blocked
  | submit (ingredients : List IngredientInput)
deriving DecidableEq

/-- The ingredient list the generate handler sends: the selected entries in
manual mode, the whole inventory projected in automatic mode. -/
def ingredientsToSend (mode : SelectionMode) (selected : List IngredientInput)
    (inventory : List InventoryItem) : List IngredientInput :=
  match mode with
  | SelectionMode.manual => selected
  | SelectionMode.expiring => inventory.map projIngredient

/-- Embedding of handleGenerateRecipes (recipes screen): the guards on empty
manual selection and empty inventory, then the submission. -/
def handleGenerateRecipes (mode : SelectionMode) (selected : List IngredientInput)
    (inventory : List InventoryItem) : GenerateOutcome :=
  if mode = SelectionMode.manual ∧ selected = [] then GenerateOutcome.blocked
  else if mode = SelectionMode.expiring ∧ inventory = [] then GenerateOutcome.blocked
  else GenerateOutcome.submit (ingredientsToSend mode selected inventory)

/-- A tentative draft record (types.ts DraftItem), restricted to the fields
the drafts screen reads. -/
structure DraftItem where
  id : String
  name : String
  quantity : Option ℚ
  unit : Option String
  expiration_date : Option String
  category : Option String
  location : Option String
deriving DecidableEq

/-- The confirmation payload (types.ts InventoryItemCreate). -/
structure InventoryItemCreate where
  name : String
  category : String
  quantity : ℚ
  unit : String
  storage_location : String
  expiry_date : String
deriving DecidableEq

/-- JavaScript a || b on an optional string: none and the empty string are
falsy and fall through to the default. -/
def jsOrStr (o : Option String) (dflt : String) : String :=
  match o with
  | some s => if s = "" then dflt else s
  | none => dflt

/-- JavaScript a || b on an optional number: none and zero are falsy and
fall through to the default. -/
def jsOrQty (o : Option ℚ) (dflt : ℚ) : ℚ :=
  match o with
  | some q => if q = 0 then dflt else q
  | none => dflt

/-- Embedding of openConfirmModal (drafts.tsx 77-87): the confirmation
payload prefilled from the draft, with the current date string substituted
when the draft carries no expiration date. -/
def openConfirmModalData (draft : DraftItem) (todayStr : String) : InventoryItemCreate :=
  { name := draft.name
    category := jsOrStr draft.category "other"
    quantity := jsOrQty draft.quantity 1
    unit := jsOrStr draft.unit "item"
    storage_location := jsOrStr draft.location "fridge"
    expiry_date := jsOrStr draft.expiration_date todayStr }

/-- The action the drafts-screen confirm handler performs: the external
confirm call with the draft id and the payload as they stand. -/
inductive ConfirmAction
  | externalConfirm (draftId : String) (payload : InventoryItemCreate)
deriving DecidableEq

/-- Embedding of handleConfirm (drafts.tsx 89-100): the external confirm
call is issued unconditionally with the current payload, and the draft is
dropped from the pending list. No field of the payload is validated. -/
def handleConfirm (drafts : List DraftItem) (selectedId : String)
    (payload : InventoryItemCreate) : ConfirmAction × List DraftItem :=
  (ConfirmAction.externalConfirm selectedId payload,
   drafts.filter (fun d => !(d.id == selectedId)))

/-- A detected item on the add-item screen (DetectedItem). -/
structure DetectedItem where
  id : String
  name : String
  category : String
  quantity : ℚ
  unit : String
  expiryDate : String
deriving DecidableEq

/-- Result of confirming one detected item: blocked by the validation, or a
creation call with the assembled payload. -/
inductive ConfirmItemResult
  | blocked
  | create (payload : InventoryItemCreate)
deriving DecidableEq

/-- Embedding of confirmItem (add-item screen): an empty expiry date blocks
before any external call; otherwise the inventory creation payload is
assembled and sent. -/
def confirmItem (item : DetectedItem) : ConfirmItemResult :=
  if item.expiryDate = "" then ConfirmItemResult.blocked
  else
    ConfirmItemResult.create
      { name := item.name
        category := jsToLower item.category
        quantity := item.quantity
        unit := jsToLower item.unit
        storage_location := "fridge"
        expiry_date := item.expiryDate }

/-- Concrete item for the merge scenario: name Milk, quantity 1. -/
def itemMilkA : InventoryItem :=
  { id := "a1", name := "Milk", category := "dairy", quantity := 1,
    unit := "liters", storage_location := "fridge", expiry_date := "2024-01-10" }

/-- Concrete item for the merge scenario: name milk, quantity 2. -/
def itemMilkB : InventoryItem :=
  { id := "b2", name := "milk", category := "dairy", quantity := 2,
    unit := "liters", storage_location := "fridge", expiry_date := "2024-01-10" }

/-- Concrete inventory holding two distinct records with the same name and
different expiry dates. -/
def invMilkTwice : List InventoryItem :=
  [{ id := "i1", name := "Milk", category := "dairy", quantity := 1,
     unit := "liters", storage_location := "fridge", expiry_date := "2024-01-10" },
   { id := "i2", name := "Milk", category := "dairy", quantity := 2,
     unit := "liters", storage_location := "fridge", expiry_date := "2024-01-15" }]

/-- Concrete draft carrying no expiration date. -/
def draftNoExpiry : DraftItem :=
  { id := "d1", name := "Apple", quantity := some 4, unit := some "pieces",
    expiration_date := none, category := some "fruits", location := some "fridge" }

/-- Concrete draft whose expiration date is present but empty. -/
def draftEmptyStrExpiry : DraftItem :=
  { id := "d2", name := "Pear", quantity := some 2, unit := some "pieces",
    expiration_date := some "", category := some "fruits", location := some "fridge" }

/-- Concrete confirmation payload whose expiry date is empty. -/
def payloadEmptyExpiry : InventoryItemCreate :=
  { name := "Apple", category := "fruits", quantity := 4, unit := "pieces",
    storage_location := "fridge", expiry_date := "" }

/-- Concrete detected item with an empty expiry date. -/
def detectedNoDate : DetectedItem :=
  { id := "x1", name := "Apple", category := "Fruits", quantity := 1,
    unit := "Pieces", expiryDate := "" }

/-- The merged row obtained from the two milk items, as displayed. -/
def rowMilk : MergedInventoryItem :=
  { toInventoryItem :=
      { id := "a1", name := "Milk", category := "dairy", quantity := 3,
        unit := "liters", storage_location := "fridge", expiry_date := "2024-01-10" },
    mergedIds := ["a1", "b2"], mergedCount := 2 }

/-- The record selected when the milk row is pressed: the first constituent
with the merged quantity substituted. -/
def selMilk : InventoryItem :=
  { id := "a1", name := "Milk", category := "dairy", quantity := 3,
    unit := "liters", storage_location := "fridge", expiry_date := "2024-01-10" }

theorem sumQtyM_mergeInsert (acc : List MergedInventoryItem) (it : InventoryItem) :
    sumQtyM (mergeInsert acc it) = sumQtyM acc + it.quantity := by
  induction acc with
  | nil => simp [mergeInsert, sumQtyM, mkMerged]
  | cons m rest ih =>
    by_cases h : mKey m = itemKey it
    · simp only [mergeInsert, if_pos h, sumQtyM, List.map_cons, List.sum_cons]
      ring
    · simp only [mergeInsert, if_neg h, sumQtyM, List.map_cons, List.sum_cons] at ih ⊢
      rw [ih]
      ring

theorem sumQtyM_foldl (l : List InventoryItem) :
    ∀ acc, sumQtyM (l.foldl mergeInsert acc) = sumQtyM acc + sumQty l := by
  induction l with
  | nil => intro acc; simp [sumQty, sumQtyM]
  | cons it rest ih =>
    intro acc
    simp only [List.foldl_cons]
    rw [ih, sumQtyM_mergeInsert]
    simp only [sumQty, List.map_cons, List.sum_cons]
    ring

/-- Claim C3: for every collection of inventory items, the sum of the
quantities of all merged rows produced by the merge operation equals the sum
of the quantities of the input items. -/
theorem merge_preserves_total_quantity (items : List InventoryItem) :
    sumQtyM (mergeInventoryItems items) = sumQty items := by
  unfold mergeInventoryItems
  rw [sumQtyM_foldl]
  simp [sumQtyM]

/-- Claim C1: consuming exactly the quantity of a record emits the removal
effect; consuming strictly less emits an update to the positive remainder
quantity minus amount; no emitted update carries a zero or negative
quantity. -/
theorem consume_effect_correct (quantity q r : ℚ) (hq : 0 < q) :
    (q = quantity → consumeEffect quantity q = ConsumeEffect.remove)
    ∧ (q < quantity →
        consumeEffect quantity q = ConsumeEffect.update (quantity - q)
        ∧ 0 < quantity - q)
    ∧ (consumeEffect quantity q = ConsumeEffect.update r → 0 < r) := by
  refine ⟨?_, ?_, ?_⟩
  · intro h
    subst h
    simp [consumeEffect]
  · intro h
    have hpos : ¬ (quantity - q ≤ 0) := by linarith
    simp only [consumeEffect, if_neg hpos]
    exact ⟨trivial, by linarith⟩
  · intro h
    by_cases hr : quantity - q ≤ 0
    · simp [consumeEffect, hr] at h
    · simp only [consumeEffect, if_neg hr, ConsumeEffect.update.injEq] at h
      have : 0 < quantity - q := by linarith
      linarith [h ▸ this]

/-- Witness for C1 at quantity 3, amount 2. -/
theorem consume_effect_correct_witness :
    (0 : ℚ) < 2
    ∧ (((2 : ℚ) = 3 → consumeEffect 3 2 = ConsumeEffect.remove)
       ∧ ((2 : ℚ) < 3 →
            consumeEffect 3 2 = ConsumeEffect.update (3 - 2) ∧ (0 : ℚ) < 3 - 2)
       ∧ (consumeEffect 3 2 = ConsumeEffect.update 1 → (0 : ℚ) < 1)) :=
  ⟨by norm_num, consume_effect_correct 3 2 1 (by norm_num)⟩

/-- Claim C5: the expiry classifier returns the ceiling of the day
difference and buckets it with threshold 3, matching every listed boundary
value for reference date 2024-01-10. -/
theorem expiry_classifier_boundary :
    getDaysUntilExpiry "2024-01-08" "2024-01-10" = some (-2)
    ∧ classifyDays (-2) = ExpiryBucket.expired
    ∧ getDaysUntilExpiry "2024-01-10" "2024-01-10" = some 0
    ∧ classifyDays 0 = ExpiryBucket.expiring
    ∧ getDaysUntilExpiry "2024-01-13" "2024-01-10" = some 3
    ∧ classifyDays 3 = ExpiryBucket.expiring
    ∧ getDaysUntilExpiry "2024-01-14" "2024-01-10" = some 4
    ∧ classifyDays 4 = ExpiryBucket.fresh := by
  decide

/-- Claim C6: two items whose names agree after lowercasing and trimming and
whose expiry dates agree merge into exactly one row carrying the summed
quantity and a merged count of 2. -/
theorem merge_same_key_single_row (i j : InventoryItem)
    (hname : normName i.name = normName j.name)
    (hexp : i.expiry_date = j.expiry_date) :
    mergeInventoryItems [i, j]
      = [{ toInventoryItem := { i with quantity := i.quantity + j.quantity },
           mergedIds := [i.id, j.id], mergedCount := 2 }] := by
  have hk : itemKey i = itemKey j := by
    simp [itemKey, hname, hexp]
  simp [mergeInventoryItems, mergeInsert, mkMerged, mKey, hk]

/-- Witness for C6: the Milk and milk items of the spec scenario produce one
row with quantity 3 and mergedCount 2. -/
theorem merge_same_key_single_row_witness :
    normName itemMilkA.name = normName itemMilkB.name
    ∧ itemMilkA.expiry_date = itemMilkB.expiry_date
    ∧ mergeInventoryItems [itemMilkA, itemMilkB]
        = [{ toInventoryItem :=
               { id := "a1", name := "Milk", category := "dairy", quantity := 3,
                 unit := "liters", storage_location := "fridge",
                 expiry_date := "2024-01-10" },
             mergedIds := ["a1", "b2"], mergedCount := 2 }] := by
  refine ⟨by decide, rfl, ?_⟩
  rw [merge_same_key_single_row itemMilkA itemMilkB (by decide) rfl]
  norm_num [itemMilkA, itemMilkB]

/-- Counterexample for C2: the drafts-screen confirmation substitutes the
current date when the draft has no expiration date, and its confirm handler
issues the external confirm call for a payload whose expiry date is empty
instead of failing first. -/
theorem drafts_confirm_no_validation :
    (openConfirmModalData draftNoExpiry "2024-01-15").expiry_date = "2024-01-15"
    ∧ (handleConfirm [draftNoExpiry] "d1" payloadEmptyExpiry).1
        = ConfirmAction.externalConfirm "d1" payloadEmptyExpiry :=
  ⟨rfl, rfl⟩

/-- Amended C2: in the detected-item flow, an empty expiry date blocks the
confirmation before any external call; the drafts-screen flow does not
validate, prefilling the payload with the current date when the draft has no
expiration date and issuing the external confirm call unconditionally. -/
theorem confirm_expiry_validation (item : DetectedItem) (draft : DraftItem)
    (todayStr did : String) (payload : InventoryItemCreate)
    (hempty : item.expiryDate = "")
    (hfalsy : draft.expiration_date = none ∨ draft.expiration_date = some "") :
    confirmItem item = ConfirmItemResult.blocked
    ∧ (openConfirmModalData draft todayStr).expiry_date = todayStr
    ∧ (handleConfirm [draft] did payload).1
        = ConfirmAction.externalConfirm did payload := by
  refine ⟨?_, ?_, rfl⟩
  · simp [confirmItem, hempty]
  · rcases hfalsy with h | h <;> simp [openConfirmModalData, h, jsOrStr]

/-- Witness for the amended C2, exercising both falsy shapes of the draft
expiration date: absent on one draft and the empty string on another. -/
theorem confirm_expiry_validation_witness :
    detectedNoDate.expiryDate = ""
    ∧ (draftNoExpiry.expiration_date = none
       ∨ draftNoExpiry.expiration_date = some "")
    ∧ (draftEmptyStrExpiry.expiration_date = none
       ∨ draftEmptyStrExpiry.expiration_date = some "")
    ∧ (confirmItem detectedNoDate = ConfirmItemResult.blocked
       ∧ (openConfirmModalData draftNoExpiry "2024-01-15").expiry_date = "2024-01-15"
       ∧ (handleConfirm [draftNoExpiry] "d7" payloadEmptyExpiry).1
           = ConfirmAction.externalConfirm "d7" payloadEmptyExpiry)
    ∧ (confirmItem detectedNoDate = ConfirmItemResult.blocked
       ∧ (openConfirmModalData draftEmptyStrExpiry "2024-01-15").expiry_date = "2024-01-15"
       ∧ (handleConfirm [draftEmptyStrExpiry] "d8" payloadEmptyExpiry).1
           = ConfirmAction.externalConfirm "d8" payloadEmptyExpiry) :=
  ⟨rfl, Or.inl rfl, Or.inr rfl,
   confirm_expiry_validation detectedNoDate draftNoExpiry "2024-01-15" "d7"
     payloadEmptyExpiry rfl (Or.inl rfl),
   confirm_expiry_validation detectedNoDate draftEmptyStrExpiry "2024-01-15" "d8"
     payloadEmptyExpiry rfl (Or.inr rfl)⟩

/-- Claim C7: filtering the rows by category and then sorting by name is a
permutation of sorting by name and then filtering by category, so both
orders yield the same result set. -/
theorem filter_sort_same_result_set (rows : List MergedInventoryItem) (c : String) :
    (sortByName (filterByCategory c rows)).Perm
      (filterByCategory c (sortByName rows)) := by
  have h1 := List.mergeSort_perm (filterByCategory c rows)
    (fun a b => decide (a.name ≤ b.name))
  have h2 := List.mergeSort_perm rows (fun a b => decide (a.name ≤ b.name))
  exact h1.trans ((h2.filter _).symm)

/-- Claim C8: in manual mode a selection of exactly two entries is submitted
unchanged, whatever the inventory. -/
theorem manual_selection_exact (selected : List IngredientInput)
    (inventory : List InventoryItem) (hlen : selected.length = 2) :
    handleGenerateRecipes SelectionMode.manual selected inventory
      = GenerateOutcome.submit selected := by
  have hne : selected ≠ [] := by
    intro h
    subst h
    simp at hlen
  simp [handleGenerateRecipes, ingredientsToSend, hne]

/-- Witness for C8 with two concrete ingredients over a larger inventory. -/
theorem manual_selection_exact_witness :
    ([projIngredient itemMilkA, projIngredient itemMilkB] : List IngredientInput).length = 2
    ∧ handleGenerateRecipes SelectionMode.manual
        [projIngredient itemMilkA, projIngredient itemMilkB] invMilkTwice
        = GenerateOutcome.submit [projIngredient itemMilkA, projIngredient itemMilkB] :=
  ⟨rfl, manual_selection_exact _ _ rfl⟩

/-- Counterexample for C9: in automatic mode the submission is the whole
inventory projected one record at a time, so two records sharing a name
produce two submitted entries with the same name. -/
theorem auto_mode_duplicate_names :
    handleGenerateRecipes SelectionMode.expiring [] invMilkTwice
      = GenerateOutcome.submit (invMilkTwice.map projIngredient)
    ∧ ¬ ((invMilkTwice.map projIngredient).map (fun i => i.name)).Nodup :=
  ⟨rfl, by decide⟩

/-- Amended C9: toggling preserves name-uniqueness of the manual selection
and appends a snapshot of the item when its name is not yet selected, while
the automatic-mode submission is the one-to-one projection of the inventory,
each entry carrying that record's quantity, unit and expiry date. -/
theorem selection_names_snapshot (selected : List IngredientInput)
    (item : InventoryItem) (inventory : List InventoryItem)
    (hnd : (selected.map (fun i => i.name)).Nodup) :
    ((toggleIngredient selected item).map (fun i => i.name)).Nodup
    ∧ ((selected.find? (fun i => i.name == item.name)).isSome = false →
        toggleIngredient selected item = selected ++ [projIngredient item])
    ∧ ingredientsToSend SelectionMode.expiring selected inventory
        = inventory.map projIngredient := by
  refine ⟨?_, ?_, rfl⟩
  · unfold toggleIngredient
    split
    · exact hnd.sublist ((List.filter_sublist _).map _)
    · rename_i hfind
      have hnotin : item.name ∉ selected.map (fun i => i.name) := by
        intro hmem
        apply hfind
        rw [List.find?_isSome]
        obtain ⟨i, hi, hni⟩ := List.mem_map.mp hmem
        exact ⟨i, hi, by simp [hni]⟩
      simp [List.nodup_append, projIngredient, hnd]
      intro i hi hni
      exact hnotin (List.mem_map.mpr ⟨i, hi, hni⟩)
  · intro h
    simp [toggleIngredient, h]

theorem qtyAt_cons (m : MergedInventoryItem) (rest : List MergedInventoryItem)
    (k : String) :
    qtyAt (m :: rest) k = if mKey m = k then some m.quantity else qtyAt rest k := rfl

theorem mKey_bump (m : MergedInventoryItem) (it : InventoryItem) :
    mKey { m with quantity := m.quantity + it.quantity,
                  mergedIds := m.mergedIds ++ [it.id],
                  mergedCount := m.mergedCount + 1 } = mKey m := rfl

theorem qtyAt_mergeInsert (acc : List MergedInventoryItem) (it : InventoryItem)
    (k : String) :
    qtyAt (mergeInsert acc it) k =
      if k = itemKey it then some ((qtyAt acc k).getD 0 + it.quantity)
      else qtyAt acc k := by
  induction acc with
  | nil =>
    by_cases h : k = itemKey it
    · simp [mergeInsert, qtyAt, mkMerged, mKey, h]
    · simp [mergeInsert, qtyAt, mkMerged, mKey, h, Ne.symm h]
  | cons m rest ih =>
    by_cases hm : mKey m = itemKey it
    · simp only [mergeInsert, if_pos hm, qtyAt_cons, mKey_bump]
      by_cases hk : k = itemKey it
      · have hmk : mKey m = k := hm.trans hk.symm
        simp [hmk, hk]
      · have hmk : mKey m ≠ k := fun hc => hk (hc.symm.trans hm)
        simp [hmk, hk]
    · simp only [mergeInsert, if_neg hm, qtyAt_cons]
      by_cases hmk : mKey m = k
      · have hk : k ≠ itemKey it := fun hc => hm (hmk.trans hc)
        simp [hmk, hk]
      · simp only [if_neg hmk, ih]

theorem totalQty_cons (it : InventoryItem) (rest : List InventoryItem) (k : String) :
    totalQty (it :: rest) k =
      if itemKey it = k then it.quantity + totalQty rest k else totalQty rest k := by
  by_cases h : itemKey it = k
  · simp [totalQty, List.filter_cons, h]
  · simp [totalQty, List.filter_cons, h]

theorem totalQty_eq_zero (l : List InventoryItem) (k : String)
    (h : k ∉ l.map itemKey) : totalQty l k = 0 := by
  induction l with
  | nil => simp [totalQty]
  | cons it rest ih =>
    simp only [List.map_cons, List.mem_cons] at h
    push_neg at h
    rw [totalQty_cons, if_neg (fun hc => h.1 hc.symm)]
    exact ih h.2

theorem qtyAt_foldl (l : List InventoryItem) :
    ∀ (acc : List MergedInventoryItem) (k : String),
      qtyAt (l.foldl mergeInsert acc) k =
        if k ∈ l.map itemKey then some ((qtyAt acc k).getD 0 + totalQty l k)
        else qtyAt acc k := by
  induction l with
  | nil => intro acc k; simp
  | cons it rest ih =>
    intro acc k
    simp only [List.foldl_cons, List.map_cons, List.mem_cons]
    rw [ih (mergeInsert acc it) k, qtyAt_mergeInsert, totalQty_cons]
    by_cases hk : k = itemKey it
    · rw [if_pos (Or.inl hk), if_pos hk, if_pos hk.symm]
      by_cases hmem : k ∈ rest.map itemKey
      · rw [if_pos hmem]
        simp [add_assoc]
      · rw [if_neg hmem, totalQty_eq_zero rest k hmem]
        simp
    · rw [if_neg hk, if_neg (fun hc : itemKey it = k => hk hc.symm)]
      by_cases hmem : k ∈ rest.map itemKey
      · rw [if_pos hmem, if_pos (Or.inr hmem)]
      · rw [if_neg hmem, if_neg (by tauto)]

theorem qtyAt_merge (l : List InventoryItem) (k : String) :
    qtyAt (mergeInventoryItems l) k =
      if k ∈ l.map itemKey then some (totalQty l k) else none := by
  unfold mergeInventoryItems
  rw [qtyAt_foldl]
  simp [qtyAt]

theorem keysOf_mergeInsert (acc : List MergedInventoryItem) (it : InventoryItem) :
    keysOf (mergeInsert acc it) =
      if itemKey it ∈ keysOf acc then keysOf acc
      else keysOf acc ++ [itemKey it] := by
  induction acc with
  | nil => simp [mergeInsert, keysOf, mkMerged, mKey]
  | cons m rest ih =>
    by_cases hm : mKey m = itemKey it
    · have hmem : itemKey it ∈ keysOf (m :: rest) := by
        simp [keysOf, ← hm]
      rw [if_pos hmem]
      simp [mergeInsert, if_pos hm, keysOf, mKey_bump]
    · simp only [mergeInsert, if_neg hm, keysOf, List.map_cons] at ih ⊢
      rw [ih]
      by_cases hmem : itemKey it ∈ List.map mKey rest
      · simp [hmem, Ne.symm hm]
      · simp [hmem, Ne.symm hm]

theorem keys_nodup_mergeInsert (acc : List MergedInventoryItem) (it : InventoryItem)
    (h : (keysOf acc).Nodup) : (keysOf (mergeInsert acc it)).Nodup := by
  rw [keysOf_mergeInsert]
  split
  · exact h
  · rename_i hnot
    simp [List.nodup_append, h, hnot]

theorem keys_nodup_foldl (l : List InventoryItem) :
    ∀ acc, (keysOf acc).Nodup → (keysOf (l.foldl mergeInsert acc)).Nodup := by
  induction l with
  | nil => intro acc h; exact h
  | cons it rest ih => intro acc h; exact ih _ (keys_nodup_mergeInsert acc it h)

theorem keys_nodup_merge (l : List InventoryItem) :
    (keysOf (mergeInventoryItems l)).Nodup :=
  keys_nodup_foldl l [] (by simp [keysOf])

theorem qtyAt_of_mem :
    ∀ (rows : List MergedInventoryItem), (keysOf rows).Nodup →
      ∀ m ∈ rows, qtyAt rows (mKey m) = some m.quantity := by
  intro rows
  induction rows with
  | nil => intro _ m hm; cases hm
  | cons a rest ih =>
    intro hnd m hm
    simp only [keysOf, List.map_cons, List.nodup_cons] at hnd
    rcases List.mem_cons.mp hm with h | h
    · subst h
      simp [qtyAt]
    · have hne : mKey a ≠ mKey m := by
        intro hc
        exact hnd.1 (hc ▸ List.mem_map_of_mem mKey h)
      rw [qtyAt_cons, if_neg hne]
      exact ih hnd.2 m h

theorem qtyAt_some_mem :
    ∀ (rows : List MergedInventoryItem) (k : String) (q : ℚ),
      qtyAt rows k = some q → (k, q) ∈ rows.map projKQ := by
  intro rows
  induction rows with
  | nil => intro k q h; simp [qtyAt] at h
  | cons a rest ih =>
    intro k q h
    rw [qtyAt_cons] at h
    by_cases hk : mKey a = k
    · rw [if_pos hk] at h
      injection h with h
      exact List.mem_cons.mpr (Or.inl (by simp [projKQ, hk, h]))
    · rw [if_neg hk] at h
      exact List.mem_cons.mpr (Or.inr (ih k q h))

theorem mem_map_projKQ (rows : List MergedInventoryItem)
    (hnd : (keysOf rows).Nodup) (k : String) (q : ℚ) :
    (k, q) ∈ rows.map projKQ ↔ qtyAt rows k = some q := by
  constructor
  · intro hmem
    obtain ⟨m, hm, hpq⟩ := List.mem_map.mp hmem
    simp only [projKQ, Prod.mk.injEq] at hpq
    rw [← hpq.1, ← hpq.2]
    exact qtyAt_of_mem rows hnd m hm
  · exact qtyAt_some_mem rows k q

/-- Claim C4: merging is order-independent; a permutation of the input
yields the same set of merged rows compared by merge key and summed
quantity. -/
theorem merge_order_independent (l₁ l₂ : List InventoryItem) (h : l₁.Perm l₂) :
    ((mergeInventoryItems l₁).map projKQ).toFinset
      = ((mergeInventoryItems l₂).map projKQ).toFinset := by
  ext p
  obtain ⟨k, q⟩ := p
  simp only [List.mem_toFinset]
  rw [mem_map_projKQ _ (keys_nodup_merge l₁) k q,
      mem_map_projKQ _ (keys_nodup_merge l₂) k q, qtyAt_merge, qtyAt_merge]
  have hmem : k ∈ l₁.map itemKey ↔ k ∈ l₂.map itemKey := (h.map itemKey).mem_iff
  have htot : totalQty l₁ k = totalQty l₂ k := by
    unfold totalQty
    exact ((h.filter _).map _).sum_eq
  by_cases hk : k ∈ l₂.map itemKey
  · rw [if_pos (hmem.mpr hk), if_pos hk, htot]
  · rw [if_neg (fun hx => hk (hmem.mp hx)), if_neg hk]

/-- Witness for C4: swapping the two milk items leaves the merged row set
unchanged. -/
theorem merge_order_independent_witness :
    ((mergeInventoryItems [itemMilkA, itemMilkB]).map projKQ).toFinset
      = ((mergeInventoryItems [itemMilkB, itemMilkA]).map projKQ).toFinset :=
  merge_order_independent [itemMilkA, itemMilkB] [itemMilkB, itemMilkA]
    (List.Perm.swap itemMilkB itemMilkA [])

/-- Claim C10: consuming a merged row issues its delete or update effect
against the first constituent id only, and every record with a different id
is still present unchanged in the resulting collection. -/
theorem consume_merged_first_only (items : List InventoryItem)
    (row : MergedInventoryItem) (q : ℚ) (fid : String) (rest : List String)
    (sel x : InventoryItem)
    (hids : row.mergedIds = fid :: rest)
    (hsel : handleItemPress items row = some sel)
    (hx : x ∈ items) (hxid : x.id ≠ fid) :
    ((confirmConsume items sel q).1 = ApiEffect.deleteItem fid
     ∨ (confirmConsume items sel q).1 = ApiEffect.updateItem fid (row.quantity - q))
    ∧ x ∈ (confirmConsume items sel q).2 := by
  unfold handleItemPress at hsel
  rw [hids] at hsel
  dsimp only at hsel
  cases hfind : items.find? (fun i => i.id == fid) with
  | none => rw [hfind] at hsel; simp at hsel
  | some orig =>
    rw [hfind] at hsel
    simp only [Option.map, Option.some.injEq] at hsel
    have hoid : orig.id = fid := by
      have := List.find?_some hfind
      simpa using this
    subst hsel
    unfold confirmConsume
    by_cases hr : ({ orig with quantity := row.quantity } : InventoryItem).quantity - q ≤ 0
    · rw [if_pos hr]
      refine ⟨Or.inl ?_, ?_⟩
      · simp [hoid]
      · simp only [List.mem_filter]
        exact ⟨hx, by simp [hoid, hxid]⟩
    · rw [if_neg hr]
      refine ⟨Or.inr ?_, ?_⟩
      · simp [hoid]
      · refine List.mem_map.mpr ⟨x, hx, ?_⟩
        have : (x.id == ({ orig with quantity := row.quantity } : InventoryItem).id) = false := by
          simp [hoid, hxid]
        simp [this]

/-- Witness for C10: consuming one unit of the merged milk row touches only
record a1 and leaves record b2 in place. -/
theorem consume_merged_first_only_witness :
    rowMilk.mergedIds = "a1" :: ["b2"]
    ∧ handleItemPress [itemMilkA, itemMilkB] rowMilk = some selMilk
    ∧ itemMilkB ∈ [itemMilkA, itemMilkB]
    ∧ itemMilkB.id ≠ "a1"
    ∧ (((confirmConsume [itemMilkA, itemMilkB] selMilk 1).1 = ApiEffect.deleteItem "a1"
        ∨ (confirmConsume [itemMilkA, itemMilkB] selMilk 1).1
            = ApiEffect.updateItem "a1" (rowMilk.quantity - 1))
       ∧ itemMilkB ∈ (confirmConsume [itemMilkA, itemMilkB] selMilk 1).2) :=
  ⟨rfl, by decide, by decide, by decide,
   consume_merged_first_only [itemMilkA, itemMilkB] rowMilk 1 "a1" ["b2"] selMilk
     itemMilkB rfl (by decide) (by decide) (by decide)⟩

/-- Witness for the amended C9: toggling milk into a selection holding Milk
appends a snapshot, and automatic mode projects the whole inventory. -/
theorem selection_names_snapshot_witness :
    (([projIngredient itemMilkA] : List IngredientInput).map (fun i => i.name)).Nodup
    ∧ (((toggleIngredient [projIngredient itemMilkA] itemMilkB).map
          (fun i => i.name)).Nodup
       ∧ ((([projIngredient itemMilkA] : List IngredientInput).find?
             (fun i => i.name == itemMilkB.name)).isSome = false →
           toggleIngredient [projIngredient itemMilkA] itemMilkB
             = [projIngredient itemMilkA] ++ [projIngredient itemMilkB])
       ∧ ingredientsToSend SelectionMode.expiring [projIngredient itemMilkA] invMilkTwice
           = invMilkTwice.map projIngredient) :=
  ⟨by decide,
   selection_names_snapshot [projIngredient itemMilkA] itemMilkB invMilkTwice (by decide)⟩
